import Mathlib

/-!
Verification development for the dual-store content synchronization core
(`webook/internal/service/article.go`,
`webook/internal/repository/article/article.go`,
`webook/internal/repository/article/article_author.go`).

The service and repository layers are embedded directly from the Go source.
The DAO layer (`webook/internal/repository/dao/article`), the domain package
and the logger are external to the given sources, so they are modelled from
the spec (sections 4.1, 4.2, 6): each such definition carries a
`Modelled from the spec:` doc comment.

Store unavailability is injected through an explicit fault schedule
(`List Bool`), one entry consumed per underlying store operation; an
exhausted schedule means the store is available.
-/

/-- Error taxonomy of the storage boundary (spec section 7):
NotFound, Forbidden, Conflict, Unavailable, Unknown. -/
inductive Err where
  | notFound
  | forbidden
  | conflict
  | unavailable
  | unknown
  deriving DecidableEq, Repr

/-- Modelled from the spec: the domain status enumeration
{Unpublished, Published, Private}; the storage encoding is the ordinal
(`uint8(art.Status)` in the repository conversion), with 0 reserved for the
zero value of the enumeration ("unknown"). -/
inductive ArticleStatus where
  | unknown
  | unpublished
  | published
  | privateS
  deriving DecidableEq, Repr

/-- The `uint8` ordinal of a status, as used by `toEntity` (`uint8(art.Status)`). -/
def ArticleStatus.toUint8 : ArticleStatus → Nat
  | .unknown => 0
  | .unpublished => 1
  | .published => 2
  | .privateS => 3

/-- `domain.Author`: the author reference embedded in a domain article. -/
structure Author where
  id : Int
  deriving DecidableEq, Repr

/-- `domain.Article`: the content item of the domain model. -/
structure Article where
  id : Int
  title : String
  content : String
  author : Author
  status : ArticleStatus
  deriving DecidableEq, Repr

/-- `dao/article.Article`: the store-level record (status stored as ordinal). -/
structure ArticleEntity where
  id : Int
  title : String
  content : String
  authorId : Int
  status : Nat
  deriving DecidableEq, Repr

/-- One underlying store: its rows plus the next identity the store will
assign on insert. -/
structure Store where
  rows : List ArticleEntity
  nextId : Int
  deriving DecidableEq, Repr

/-- The pair of stores a strategy writes: the draft (author) store and the
published (reader) store. -/
structure DB where
  drafts : Store
  published : Store
  deriving DecidableEq, Repr

/-- Look up the row with the given identity. -/
def rowById (s : Store) (i : Int) : Option ArticleEntity :=
  s.rows.find? (fun x => x.id == i)

/-- The non-status fields of a row (used to state that a status-only update
touches nothing else). -/
def contentOf (x : ArticleEntity) : Int × String × String × Int :=
  (x.id, x.title, x.content, x.authorId)

/-- Pop one availability flag off the fault schedule; an exhausted schedule
means the store is available. -/
def takeFault : List Bool → Bool × List Bool
  | [] => (true, [])
  | b :: rest => (b, rest)

/-- Modelled from the spec: Draft Store Adapter `Insert(record)` assigns and
returns a new identity (spec section 4.1). -/
def daoInsert (s : Store) (r : ArticleEntity) : Int × Store :=
  (s.nextId, { rows := s.rows ++ [{ r with id := s.nextId }], nextId := s.nextId + 1 })

/-- Modelled from the spec: Draft Store Adapter `UpdateById(record)` requires
`record.identity` to already exist and fails with NotFound if it does not
(spec section 4.1). -/
def daoUpdateById (s : Store) (r : ArticleEntity) : Except Err Store :=
  if s.rows.any (fun x => x.id == r.id) then
    Except.ok { s with rows := s.rows.map (fun x => if x.id == r.id then r else x) }
  else
    Except.error Err.notFound

/-- Modelled from the spec: Published Store Adapter `Upsert(record)`:
insert-if-absent, else full replace of the row matching the identity
(spec section 4.2). -/
def daoUpsert (s : Store) (r : ArticleEntity) : Store :=
  if s.rows.any (fun x => x.id == r.id) then
    { s with rows := s.rows.map (fun x => if x.id == r.id then r else x) }
  else
    { s with rows := s.rows ++ [r] }

/-- Replace only the status field of the row(s) with the given identity. -/
def setStatus (s : Store) (i : Int) (st : Nat) : Store :=
  { s with rows := s.rows.map (fun x => if x.id == i then { x with status := st } else x) }

/-- Modelled from the spec: `SyncStatusOnly(identity, authorIdentity, status)`
updates only the status field after verifying the author identity matches,
failing with Forbidden/NotFound otherwise, against the store(s) that hold
status (spec sections 4.2, 4.4). -/
def daoSyncStatus (db : DB) (uid : Int) (i : Int) (st : Nat) : Except Err DB :=
  match rowById db.drafts i with
  | none => Except.error Err.notFound
  | some row =>
    if row.authorId == uid then
      Except.ok { drafts := setStatus db.drafts i st, published := setStatus db.published i st }
    else
      Except.error Err.forbidden

/-- An adapter insert call against a possibly-unavailable store. -/
def callInsert (sch : List Bool) (s : Store) (r : ArticleEntity) :
    Except Err (Int × Store) × List Bool :=
  let (ok, sch') := takeFault sch
  (if ok then Except.ok (daoInsert s r) else Except.error Err.unavailable, sch')

/-- An adapter update call against a possibly-unavailable store. -/
def callUpdate (sch : List Bool) (s : Store) (r : ArticleEntity) :
    Except Err Store × List Bool :=
  let (ok, sch') := takeFault sch
  (if ok then daoUpdateById s r else Except.error Err.unavailable, sch')

/-- An adapter upsert call against a possibly-unavailable store. -/
def callUpsert (sch : List Bool) (s : Store) (r : ArticleEntity) :
    Except Err Store × List Bool :=
  let (ok, sch') := takeFault sch
  (if ok then Except.ok (daoUpsert s r) else Except.error Err.unavailable, sch')

/-- `CachedArticleRepository.toEntity`: domain to record conversion of the
single-store repository; carries the status ordinal (`Status: uint8(art.Status)`). -/
def CachedArticleRepository.toEntity (art : Article) : ArticleEntity :=
  { id := art.id
    title := art.title
    content := art.content
    authorId := art.author.id
    status := art.status.toUint8 }

/-- `CachedArticleAuthorRepository.toEntity`: domain to record conversion of
the two-repository author path; the Go struct literal omits the `Status`
field, so it is left at the `uint8` zero value. -/
def CachedArticleAuthorRepository.toEntity (art : Article) : ArticleEntity :=
  { id := art.id
    title := art.title
    content := art.content
    authorId := art.author.id
    status := 0 }

/-- A `gorm` transaction handle: the database state at `Begin`, the working
state the transaction's DAO calls mutate, and whether `Commit` happened. -/
structure Tx where
  base : DB
  work : DB
  committed : Bool
  deriving DecidableEq, Repr

/-- `db.Begin()`: open a transaction over the current database state. -/
def txBegin (db : DB) : Tx :=
  { base := db, work := db, committed := false }

/-- `tx.Commit()`: finalize the working state. -/
def txCommit (tx : Tx) : Tx :=
  { tx with committed := true }

/-- `tx.Rollback()`: discard uncommitted work; after a successful commit it
is a harmless no-op (the state is already finalized). -/
def txRollback (tx : Tx) : Tx :=
  if tx.committed then tx else { tx with work := tx.base }

/-- The database state visible once the transaction handle is resolved. -/
def txDB (tx : Tx) : DB :=
  tx.work

/-- `CachedArticleRepository.SyncV1`: create-or-update in the author store,
copy the identity onto the record, then a single `Upsert` into the reader
store; returns the identity together with the upsert's error. -/
def SyncV1 (sch : List Bool) (db : DB) (art : Article) :
    (Int × Option Err) × DB × List Bool :=
  let artn := CachedArticleRepository.toEntity art
  if art.id == 0 then
    match callInsert sch db.drafts artn with
    | (Except.error e, sch') => ((0, some e), db, sch')
    | (Except.ok (i, d'), sch') =>
      match callUpsert sch' db.published { artn with id := i } with
      | (Except.ok p', sch2) => ((i, none), { drafts := d', published := p' }, sch2)
      | (Except.error e, sch2) => ((i, some e), { drafts := d', published := db.published }, sch2)
  else
    match callUpdate sch db.drafts artn with
    | (Except.error e, sch') => ((0, some e), db, sch')
    | (Except.ok d', sch') =>
      match callUpsert sch' db.published artn with
      | (Except.ok p', sch2) => ((art.id, none), { drafts := d', published := p' }, sch2)
      | (Except.error e, sch2) => ((art.id, some e), { drafts := d', published := db.published }, sch2)

/-- The published-store step of `SyncV2`: `UpsertV2` bound to the transaction,
then `tx.Commit()` whose result the Go code discards, then the deferred
`tx.Rollback()` that runs on every exit path. -/
def syncV2Publish (sch : List Bool) (tx : Tx) (artn : ArticleEntity) :
    Except Err Int × DB × List Bool :=
  match callUpsert sch tx.work.published artn with
  | (Except.error e, sch1) => (Except.error e, txDB (txRollback tx), sch1)
  | (Except.ok p', sch1) =>
    match takeFault sch1 with
    | (true, sch2) =>
      (Except.ok artn.id,
       txDB (txRollback (txCommit { tx with work := { tx.work with published := p' } })), sch2)
    | (false, sch2) =>
      (Except.ok artn.id,
       txDB (txRollback { tx with work := { tx.work with published := p' } }), sch2)

/-- `CachedArticleRepository.SyncV2`: open a transaction, schedule the
deferred rollback, create-or-update the draft record and upsert the
published record inside the transaction, then commit (result discarded by
the Go code). Every exit path resolves through the deferred rollback. -/
def SyncV2 (sch : List Bool) (db : DB) (art : Article) :
    Except Err Int × DB × List Bool :=
  match takeFault sch with
  | (false, sch0) => (Except.error Err.unavailable, db, sch0)
  | (true, sch0) =>
    if art.id == 0 then
      match callInsert sch0 (txBegin db).work.drafts (CachedArticleRepository.toEntity art) with
      | (Except.error e, sch1) => (Except.error e, txDB (txRollback (txBegin db)), sch1)
      | (Except.ok (i, d'), sch1) =>
        syncV2Publish sch1
          { txBegin db with work := { (txBegin db).work with drafts := d' } }
          { CachedArticleRepository.toEntity art with id := i }
    else
      match callUpdate sch0 (txBegin db).work.drafts (CachedArticleRepository.toEntity art) with
      | (Except.error e, sch1) => (Except.error e, txDB (txRollback (txBegin db)), sch1)
      | (Except.ok d', sch1) =>
        syncV2Publish sch1
          { txBegin db with work := { (txBegin db).work with drafts := d' } }
          (CachedArticleRepository.toEntity art)

/-- Modelled from the spec: the reader repository projects the item to a
published record sharing the identity (a structurally distinct projection of
the same fields, status stored as its ordinal; spec sections 3, 4.2). -/
def readerToEntity (art : Article) : ArticleEntity :=
  { id := art.id
    title := art.title
    content := art.content
    authorId := art.author.id
    status := art.status.toUint8 }

/-- The draft phase of `PublishV1`: `authorRepo.Create` when the identity is
0, else `authorRepo.Update`; on success yields the identity together with
the updated author store. Conversion is the author repository's `toEntity`. -/
def draftWriteResult (sch : List Bool) (s : Store) (art : Article) :
    Except Err (Int × Store) × List Bool :=
  if art.id == 0 then
    callInsert sch s (CachedArticleAuthorRepository.toEntity art)
  else
    match callUpdate sch s (CachedArticleAuthorRepository.toEntity art) with
    | (Except.ok s', sch') => (Except.ok (art.id, s'), sch')
    | (Except.error e, sch') => (Except.error e, sch')

/-- The retry loop of `PublishV1`: `for i := 0; i < n; i++ { err =
readerRepo.Save; if err == nil break; log attempt failure }`. Returns the
final error, the reader store, the remaining schedule, the number of
attempts made, and the number of in-loop failure records emitted. -/
def readerRetry (artn : ArticleEntity) :
    Nat → Store → List Bool → Option Err × Store × List Bool × Nat × Nat
  | 0, s, sch => (none, s, sch, 0, 0)
  | n + 1, s, sch =>
    let (ok, sch') := takeFault sch
    if ok then
      (none, daoUpsert s artn, sch', 1, 0)
    else
      match n with
      | 0 => (some Err.unavailable, s, sch', 1, 1)
      | m + 1 =>
        let (e, s2, sch2, att, fl) := readerRetry artn (m + 1) s sch'
        (e, s2, sch2, att + 1, fl + 1)

/-- The observable outcome of one `PublishV1` call: the returned identity and
error, the final stores, the remaining fault schedule, the number of
reader-store save attempts, and the failure records emitted inside the retry
loop and after it. -/
structure PubV1Out where
  id : Int
  err : Option Err
  db : DB
  sch : List Bool
  readerAttempts : Nat
  attemptFailLogs : Nat
  finalFailLogs : Nat
  deriving DecidableEq, Repr

/-- `articleService.PublishV1` (Strategy B): create-or-update through the
author repository, abort on failure; on success copy the identity onto the
item and attempt `readerRepo.Save` up to 3 times, logging each in-loop
failure; if the error persists, log once more and return `0, err`, else
return the identity. -/
def PublishV1 (sch : List Bool) (db : DB) (art : Article) : PubV1Out :=
  match draftWriteResult sch db.drafts art with
  | (Except.error e, sch') =>
    { id := 0, err := some e, db := db, sch := sch'
      readerAttempts := 0, attemptFailLogs := 0, finalFailLogs := 0 }
  | (Except.ok (i, d'), sch') =>
    let art := { art with id := i }
    let (e, p', sch2, att, fl) := readerRetry (readerToEntity art) 3 db.published sch'
    match e with
    | none =>
      { id := i, err := none, db := { drafts := d', published := p' }, sch := sch2
        readerAttempts := att, attemptFailLogs := fl, finalFailLogs := 0 }
    | some e =>
      { id := 0, err := some e, db := { drafts := d', published := p' }, sch := sch2
        readerAttempts := att, attemptFailLogs := fl, finalFailLogs := 1 }

/-- `articleService.Save`: force status to Unpublished, then route to update
(returning `art.Id` with the update's error) when the identity is positive,
else to create through the single-store repository's draft path. -/
def Save (sch : List Bool) (db : DB) (art : Article) :
    (Int × Option Err) × DB × List Bool :=
  let art := { art with status := ArticleStatus.unpublished }
  if art.id > 0 then
    match callUpdate sch db.drafts (CachedArticleRepository.toEntity art) with
    | (Except.ok d', sch') => ((art.id, none), { db with drafts := d' }, sch')
    | (Except.error e, sch') => ((art.id, some e), db, sch')
  else
    match callInsert sch db.drafts (CachedArticleRepository.toEntity art) with
    | (Except.ok (i, d'), sch') => ((i, none), { db with drafts := d' }, sch')
    | (Except.error e, sch') => ((0, some e), db, sch')

/-- `articleService.Withdraw`: delegate to `repo.SyncStatus(uid, id, Private)`,
which reaches the DAO's status-only synchronization with the Private ordinal. -/
def Withdraw (sch : List Bool) (db : DB) (uid : Int) (i : Int) :
    Option Err × DB × List Bool :=
  let (ok, sch') := takeFault sch
  if ok then
    match daoSyncStatus db uid i ArticleStatus.privateS.toUint8 with
    | Except.ok db' => (none, db', sch')
    | Except.error e => (some e, db, sch')
  else
    (some Err.unavailable, db, sch')

/-! Helper lemmas about the list-level store operations. -/

/-- Mapping a row transformer that preserves a projection preserves the
projected list. -/
theorem map_map_congr {α β : Type} (g : α → α) (f : α → β)
    (h : ∀ x, f (g x) = f x) (l : List α) : (l.map g).map f = l.map f := by
  induction l with
  | nil => rfl
  | cons a t ih => simp [h, ih]

/-- Replacing the rows matching an identity does not change the identity list. -/
theorem map_ids_replace (rows : List ArticleEntity) (r : ArticleEntity) :
    (rows.map (fun x => if x.id == r.id then r else x)).map (fun x => x.id)
      = rows.map (fun x => x.id) := by
  refine map_map_congr _ _ (fun x => ?_) rows
  by_cases hx : (x.id == r.id) = true
  · simp [hx, (eq_of_beq hx).symm]
  · simp [hx]

/-- A status-only rewrite does not change the non-status projection of a row list. -/
theorem map_contentOf_setStatus (rows : List ArticleEntity) (i : Int) (st : Nat) :
    (rows.map (fun x => if x.id == i then { x with status := st } else x)).map contentOf
      = rows.map contentOf := by
  refine map_map_congr _ _ (fun x => ?_) rows
  by_cases hx : (x.id == i) = true
  · simp [hx, contentOf]
  · simp [hx]

/-- If the suffix already finds a match, appending keeps `find?` successful. -/
theorem find?_append_ne_none {α : Type} (p : α → Bool) (l₁ l₂ : List α)
    (h : l₂.find? p ≠ none) : (l₁ ++ l₂).find? p ≠ none := by
  induction l₁ with
  | nil => simpa using h
  | cons a t ih =>
    by_cases ha : p a = true
    · simp [List.cons_append, List.find?_cons_of_pos _ ha]
    · rw [List.cons_append, List.find?_cons_of_neg _ ha]
      exact ih

/-- After a replacing upsert pass over rows that contain a match, `find?`
returns the new record. -/
theorem find?_map_replace (rows : List ArticleEntity) (r : ArticleEntity)
    (h : rows.any (fun x => x.id == r.id) = true) :
    (rows.map (fun x => if x.id == r.id then r else x)).find? (fun x => x.id == r.id)
      = some r := by
  induction rows with
  | nil => simp at h
  | cons a t ih =>
    by_cases ha : (a.id == r.id) = true
    · have hg : (if a.id == r.id then r else a) = r := by simp [ha]
      rw [List.map_cons, hg, List.find?_cons_of_pos _ (by simp)]
    · have ht : t.any (fun x => x.id == r.id) = true := by
        simpa [ha] using h
      have hg : (if a.id == r.id then r else a) = a := by simp [ha]
      rw [List.map_cons, hg,
        @List.find?_cons_of_neg _ (fun x => x.id == r.id) a _ ha]
      exact ih ht

/-- If no row matches, `find?` fails on the whole list. -/
theorem find?_eq_none_of_any_false (rows : List ArticleEntity) (r : ArticleEntity)
    (h : rows.any (fun x => x.id == r.id) = false) :
    rows.find? (fun x => x.id == r.id) = none := by
  induction rows with
  | nil => rfl
  | cons a t ih =>
    by_cases ha : (a.id == r.id) = true
    · simp [ha] at h
    · have ht : t.any (fun x => x.id == r.id) = false := by
        simpa [ha] using h
      rw [@List.find?_cons_of_neg _ (fun x => x.id == r.id) a _ ha]
      exact ih ht

/-- An upsert leaves the upserted record observable under its identity. -/
theorem rowById_daoUpsert_self (s : Store) (r : ArticleEntity) :
    rowById (daoUpsert s r) r.id = some r := by
  unfold daoUpsert rowById
  by_cases hany : s.rows.any (fun x => x.id == r.id) = true
  · simpa [hany] using find?_map_replace s.rows r hany
  · have h0 : s.rows.any (fun x => x.id == r.id) = false := by
      simpa using hany
    have hn := find?_eq_none_of_any_false s.rows r h0
    simp only [h0]
    simp [List.find?_append, hn]

/-- Upserting preserves the identity list or appends exactly the new identity. -/
theorem daoUpsert_ids (s : Store) (r : ArticleEntity) :
    (daoUpsert s r).rows.map (fun x => x.id) = s.rows.map (fun x => x.id)
    ∨ (daoUpsert s r).rows.map (fun x => x.id) = s.rows.map (fun x => x.id) ++ [r.id] := by
  unfold daoUpsert
  by_cases hany : s.rows.any (fun x => x.id == r.id) = true
  · exact Or.inl (by simpa [hany] using map_ids_replace s.rows r)
  · have h0 : s.rows.any (fun x => x.id == r.id) = false := by simpa using hany
    exact Or.inr (by simp [h0])

/-- Inserting leaves a row observable under the newly assigned identity. -/
theorem rowById_daoInsert_self (s : Store) (r : ArticleEntity) :
    rowById (daoInsert s r).2 (daoInsert s r).1 ≠ none := by
  unfold daoInsert rowById
  refine find?_append_ne_none _ _ _ ?_
  simp [List.find?_cons]

/-! Concrete fixtures used by witnesses and counterexamples. -/

/-- Two empty stores whose draft store will assign identity 1 next. -/
def dbEmpty : DB :=
  { drafts := { rows := [], nextId := 1 }, published := { rows := [], nextId := 1 } }

/-- A not-yet-created item (identity 0). -/
def artNew : Article :=
  { id := 0, title := "A", content := "B", author := { id := 9 }, status := ArticleStatus.published }

/-- The row stored for `artNew`'s draft write through the author repository. -/
def draftRow1 : ArticleEntity :=
  { id := 1, title := "A", content := "B", authorId := 9, status := 0 }

/-- A database whose draft store holds one row with identity 7 owned by author 2. -/
def dbWith7 : DB :=
  { drafts := { rows := [{ id := 7, title := "t", content := "c", authorId := 2, status := 2 }], nextId := 8 }
    published := { rows := [{ id := 7, title := "t", content := "c", authorId := 2, status := 2 }], nextId := 1 } }

/-- An existing item with identity 7 owned by author 2. -/
def art7 : Article :=
  { id := 7, title := "t2", content := "c2", author := { id := 2 }, status := ArticleStatus.published }

/-- Claim C6: under Strategy B (`PublishV1`), if the draft-store
create-or-update fails, the call aborts immediately and propagates that
error unchanged: no retry occurs, the published store is never touched
(zero reader-store attempts), no failure record is emitted and no state
changes. -/
theorem claimC6 (sch : List Bool) (db : DB) (art : Article) (e : Err) (sch' : List Bool)
    (h : draftWriteResult sch db.drafts art = (Except.error e, sch')) :
    PublishV1 sch db art
      = { id := 0, err := some e, db := db, sch := sch'
          readerAttempts := 0, attemptFailLogs := 0, finalFailLogs := 0 } := by
  unfold PublishV1
  rw [h]

/-- Witness for C6 at a concrete input: an unavailable draft store makes
`PublishV1` return the draft error with no reader attempt and no change. -/
theorem claimC6_witness :
    PublishV1 [false] dbEmpty artNew
      = { id := 0, err := some Err.unavailable, db := dbEmpty, sch := []
          readerAttempts := 0, attemptFailLogs := 0, finalFailLogs := 0 } :=
  claimC6 [false] dbEmpty artNew Err.unavailable [] rfl

/-- Claim C10: for an item with positive identity, `Save` returns the input
identity together with whatever error the update produced; when the update
fails the caller receives that non-zero identity alongside the error, and
only the draft path was attempted (the published store is untouched). -/
theorem claimC10 (sch : List Bool) (db : DB) (art : Article) (h : 0 < art.id) :
    (Save sch db art).1.1 = art.id
    ∧ (Save sch db art).2.1.published = db.published
    ∧ ∀ e sch2,
        callUpdate sch db.drafts
            (CachedArticleRepository.toEntity { art with status := ArticleStatus.unpublished })
          = (Except.error e, sch2) →
        Save sch db art = ((art.id, some e), db, sch2) := by
  rcases hu : callUpdate sch db.drafts
      (CachedArticleRepository.toEntity { art with status := ArticleStatus.unpublished })
    with ⟨r, sch2⟩
  cases r with
  | ok d' =>
    have hS : Save sch db art = ((art.id, none), { db with drafts := d' }, sch2) := by
      simp only [Save, hu]
      rw [if_pos h]
    refine ⟨by rw [hS], by rw [hS], ?_⟩
    intro e sch3 hc
    exact absurd hc (by simp)
  | error e =>
    have hS : Save sch db art = ((art.id, some e), db, sch2) := by
      simp only [Save, hu]
      rw [if_pos h]
    refine ⟨by rw [hS], by rw [hS], ?_⟩
    intro e2 sch3 hc
    injection hc with h1 h2
    injection h1 with h3
    subst h3
    subst h2
    exact hS

/-- Witness for C10 at a concrete input: updating item 7 against an
unavailable store returns identity 7 alongside the error, stores unchanged. -/
theorem claimC10_witness :
    Save [false] dbWith7 art7 = ((7, some Err.unavailable), dbWith7, []) :=
  (claimC10 [false] dbWith7 art7 (by decide)).2.2 Err.unavailable [] rfl

/-- Claim C7: `Save` forces the item's status to Unpublished before
persisting, routes to create when the identity is 0 and to update when it is
positive, writes only via the draft path (the published store is never
written), and returns the item's stable identity. -/
theorem claimC7 (sch rest : List Bool) (db : DB) (art : Article) :
    (Save sch db art).2.1.published = db.published
    ∧ (0 < art.id → (Save sch db art).1.1 = art.id)
    ∧ (art.id = 0 →
        Save (true :: rest) db art
          = ((db.drafts.nextId, none),
             { db with drafts :=
                { rows := db.drafts.rows
                    ++ [{ id := db.drafts.nextId, title := art.title, content := art.content
                          authorId := art.author.id, status := ArticleStatus.unpublished.toUint8 }]
                  nextId := db.drafts.nextId + 1 } },
             rest))
    ∧ (0 < art.id → db.drafts.rows.any (fun x => x.id == art.id) = true →
        Save (true :: rest) db art
          = ((art.id, none),
             { db with drafts :=
                { db.drafts with rows := db.drafts.rows.map (fun x =>
                    if x.id == art.id then
                      { id := art.id, title := art.title, content := art.content
                        authorId := art.author.id, status := ArticleStatus.unpublished.toUint8 }
                    else x) } },
             rest)) := by
  refine ⟨?_, ?_, ?_, ?_⟩
  · simp only [Save]
    split
    · rcases hc : callUpdate sch db.drafts
          (CachedArticleRepository.toEntity { art with status := ArticleStatus.unpublished })
        with ⟨r, sch2⟩
      cases r <;> rfl
    · rcases hc : callInsert sch db.drafts
          (CachedArticleRepository.toEntity { art with status := ArticleStatus.unpublished })
        with ⟨r, sch2⟩
      cases r with
      | ok pr => rcases pr with ⟨i, d'⟩; rfl
      | error e => rfl
  · intro hpos
    simp only [Save]
    rw [if_pos hpos]
    rcases hc : callUpdate sch db.drafts
        (CachedArticleRepository.toEntity { art with status := ArticleStatus.unpublished })
      with ⟨r, sch2⟩
    cases r <;> rfl
  · intro h0
    simp only [Save]
    rw [h0]
    rw [if_neg (by decide)]
    simp [callInsert, takeFault, daoInsert, CachedArticleRepository.toEntity, h0]
  · intro hpos hany
    simp only [Save]
    rw [if_pos hpos]
    simp only [callUpdate, takeFault]
    simp [daoUpdateById, CachedArticleRepository.toEntity, hany]

/-- Witness for C7 at a concrete input: saving a fresh item stores exactly
one draft row with status Unpublished and leaves the published store empty. -/
theorem claimC7_witness :
    Save [true] dbEmpty artNew
      = ((1, none),
         { drafts := { rows := [{ id := 1, title := "A", content := "B", authorId := 9, status := 1 }]
                       nextId := 2 }
           published := { rows := [], nextId := 1 } },
         []) := by
  have h := (claimC7 [true] [] dbEmpty artNew).2.2.1 rfl
  simpa using h

/-- Claim C9: the author-repository conversion to a store record leaves the
record's status field at the zero ordinal regardless of the item's actual
status — so draft rows inserted through the two-repository strategy carry
status 0 — unlike the single-store repository conversion, which carries the
item's status ordinal. -/
theorem claimC9 (art : Article) :
    (CachedArticleAuthorRepository.toEntity art).status = 0
    ∧ (CachedArticleRepository.toEntity art).status = art.status.toUint8
    ∧ (art.status ≠ ArticleStatus.unknown →
        (CachedArticleAuthorRepository.toEntity art).status ≠ art.status.toUint8)
    ∧ ∀ s : Store, (daoInsert s (CachedArticleAuthorRepository.toEntity art)).2.rows
        = s.rows ++ [{ id := s.nextId, title := art.title, content := art.content
                       authorId := art.author.id, status := 0 }] := by
  refine ⟨rfl, rfl, ?_, fun s => rfl⟩
  intro hne
  cases h : art.status with
  | unknown => exact absurd h hne
  | unpublished => simp [CachedArticleAuthorRepository.toEntity, ArticleStatus.toUint8]
  | published => simp [CachedArticleAuthorRepository.toEntity, ArticleStatus.toUint8]
  | privateS => simp [CachedArticleAuthorRepository.toEntity, ArticleStatus.toUint8]

/-- Witness for C9 at a concrete input: the author-path record of a
Published item does not carry the Published ordinal. -/
theorem claimC9_witness :
    (CachedArticleAuthorRepository.toEntity artNew).status = 0
    ∧ (CachedArticleAuthorRepository.toEntity artNew).status ≠ artNew.status.toUint8 :=
  ⟨(claimC9 artNew).1, (claimC9 artNew).2.2.1 (by decide)⟩

/-- Counterexample to claim C1 as stated: at a concrete input where the
draft write succeeds (identity 1 is assigned and the draft row is
observable) and the published-store save fails on all 3 attempts,
`PublishV1` returns the error together with identity 0 — not the non-zero
identity that was already assigned, contradicting the claim. -/
theorem claimC1_counterexample :
    (PublishV1 [true, false, false, false] dbEmpty artNew).err = some Err.unavailable
    ∧ rowById (PublishV1 [true, false, false, false] dbEmpty artNew).db.drafts 1 = some draftRow1
    ∧ (PublishV1 [true, false, false, false] dbEmpty artNew).id = 0 :=
  ⟨rfl, rfl, rfl⟩

/-- Claim C1 (amended): for every item whose draft write succeeds under
Strategy B but whose published-store save fails on all 3 attempts, the call
returns the published-store error together with identity 0 (the Go code
returns `0, err`); the partial state is still distinguishable because the
draft write remains committed and the assigned identity appears only in the
emitted failure records, not in the return value. -/
theorem claimC1_amended (sch rest : List Bool) (db : DB) (art : Article)
    (i : Int) (d' : Store)
    (h : draftWriteResult sch db.drafts art
        = (Except.ok (i, d'), false :: false :: false :: rest)) :
    (PublishV1 sch db art).err = some Err.unavailable
    ∧ (PublishV1 sch db art).id = 0
    ∧ (PublishV1 sch db art).db.drafts = d'
    ∧ (PublishV1 sch db art).readerAttempts = 3
    ∧ (PublishV1 sch db art).attemptFailLogs = 3
    ∧ (PublishV1 sch db art).finalFailLogs = 1 := by
  have hP : PublishV1 sch db art
      = { id := 0, err := some Err.unavailable
          db := { drafts := d', published := db.published }, sch := rest
          readerAttempts := 3, attemptFailLogs := 3, finalFailLogs := 1 } := by
    unfold PublishV1
    rw [h]
    rfl
  rw [hP]
  exact ⟨rfl, rfl, rfl, rfl, rfl, rfl⟩

/-- Witness for the amended C1 at a concrete input: draft committed with
identity 1, all 3 published-store attempts fail, the call returns the error
with identity 0. -/
theorem claimC1_witness :
    (PublishV1 [true, false, false, false] dbEmpty artNew).id = 0
    ∧ (PublishV1 [true, false, false, false] dbEmpty artNew).db.drafts
        = { rows := [draftRow1], nextId := 2 }
    ∧ (PublishV1 [true, false, false, false] dbEmpty artNew).finalFailLogs = 1 := by
  have h := claimC1_amended [true, false, false, false] [] dbEmpty artNew 1
    { rows := [draftRow1], nextId := 2 } rfl
  exact ⟨h.2.1, h.2.2.1, h.2.2.2.2.2⟩

/-- Claim C4: under Strategy B, after a successful draft write the
published-store save is attempted at most 3 times, the loop stops at the
first success, exactly one failure record is emitted inside the loop for
each failed attempt, the call succeeds iff some attempt succeeds, and on
success the published row is upserted. -/
theorem claimC4 (sch rest : List Bool) (db : DB) (art : Article)
    (i : Int) (d' : Store) (b1 b2 b3 : Bool)
    (h : draftWriteResult sch db.drafts art = (Except.ok (i, d'), b1 :: b2 :: b3 :: rest)) :
    (PublishV1 sch db art).readerAttempts ≤ 3
    ∧ (PublishV1 sch db art).readerAttempts = (if b1 then 1 else if b2 then 2 else 3)
    ∧ (PublishV1 sch db art).attemptFailLogs
        = (if b1 then 0 else if b2 then 1 else if b3 then 2 else 3)
    ∧ ((PublishV1 sch db art).err = none ↔ (b1 || b2 || b3) = true)
    ∧ ((b1 || b2 || b3) = true →
        (PublishV1 sch db art).db.published
          = daoUpsert db.published (readerToEntity { art with id := i })) := by
  cases b1 with
  | true =>
    have hP : PublishV1 sch db art
        = { id := i, err := none
            db := { drafts := d'
                    published := daoUpsert db.published (readerToEntity { art with id := i }) }
            sch := b2 :: b3 :: rest
            readerAttempts := 1, attemptFailLogs := 0, finalFailLogs := 0 } := by
      unfold PublishV1
      rw [h]
      rfl
    rw [hP]
    simp
  | false =>
    cases b2 with
    | true =>
      have hP : PublishV1 sch db art
          = { id := i, err := none
              db := { drafts := d'
                      published := daoUpsert db.published (readerToEntity { art with id := i }) }
              sch := b3 :: rest
              readerAttempts := 2, attemptFailLogs := 1, finalFailLogs := 0 } := by
        unfold PublishV1
        rw [h]
        rfl
      rw [hP]
      simp
    | false =>
      cases b3 with
      | true =>
        have hP : PublishV1 sch db art
            = { id := i, err := none
                db := { drafts := d'
                        published := daoUpsert db.published (readerToEntity { art with id := i }) }
                sch := rest
                readerAttempts := 3, attemptFailLogs := 2, finalFailLogs := 0 } := by
          unfold PublishV1
          rw [h]
          rfl
        rw [hP]
        simp
      | false =>
        have hP : PublishV1 sch db art
            = { id := 0, err := some Err.unavailable
                db := { drafts := d', published := db.published }, sch := rest
                readerAttempts := 3, attemptFailLogs := 3, finalFailLogs := 1 } := by
          unfold PublishV1
          rw [h]
          rfl
        rw [hP]
        simp

/-- Witness for C4 at the spec's scenario: the published store rejects the
first 2 attempts and accepts the 3rd — 3 attempts, exactly 2 failure
records, and the call succeeds. -/
theorem claimC4_witness :
    (PublishV1 [true, false, false, true] dbEmpty artNew).readerAttempts = 3
    ∧ (PublishV1 [true, false, false, true] dbEmpty artNew).attemptFailLogs = 2
    ∧ (PublishV1 [true, false, false, true] dbEmpty artNew).err = none := by
  have h := claimC4 [true, false, false, true] [] dbEmpty artNew 1
    { rows := [draftRow1], nextId := 2 } false false true rfl
  exact ⟨h.2.1.trans rfl, h.2.2.1.trans rfl, h.2.2.2.1.mpr rfl⟩

/-- Evaluation of claim C5's failing input: `SyncV2` discards the result of
`tx.Commit()`, so when begin, the draft insert and the published upsert
succeed but the commit fails, the call returns success (`Except.ok 1`) even
though neither store holds the row afterwards — the commit failure is
silently downgraded to success. -/
theorem claimC5_commit_failure_swallowed :
    (SyncV2 [true, true, true, false] dbEmpty artNew).1 = Except.ok 1
    ∧ (SyncV2 [true, true, true, false] dbEmpty artNew).2.1 = dbEmpty
    ∧ rowById dbEmpty.drafts 1 = none
    ∧ rowById dbEmpty.published 1 = none :=
  ⟨rfl, rfl, rfl, rfl⟩

/-- If the published-store step of `SyncV2` reports an error, the deferred
rollback restores the state that was current at `Begin`. -/
theorem syncV2Publish_error (sch : List Bool) (tx : Tx) (artn : ArticleEntity) (e : Err)
    (hc : tx.committed = false)
    (h : (syncV2Publish sch tx artn).1 = Except.error e) :
    (syncV2Publish sch tx artn).2.1 = tx.base := by
  unfold syncV2Publish at h ⊢
  split at h
  · rename_i e2 sch1 heq
    simp [txDB, txRollback, hc]
  · rename_i p' sch1 heq
    split at h <;> exact absurd h (by simp)

/-- Claim C2: under Strategy C (`SyncV2`), if either the draft-store write
or the published-store write fails, the transaction is rolled back and the
error is returned so no partial state is observable (the database after the
call equals the database before it); the deferred rollback resolves every
exit path, and a rollback issued after a successful commit is a harmless
no-op. -/
theorem claimC2 (sch rest : List Bool) (db : DB) (art : Article) :
    (∀ e, (SyncV2 sch db art).1 = Except.error e → (SyncV2 sch db art).2.1 = db)
    ∧ (∀ tx : Tx, txRollback (txCommit tx) = txCommit tx)
    ∧ SyncV2 (true :: false :: rest) db art = (Except.error Err.unavailable, db, rest)
    ∧ (art.id = 0 →
        SyncV2 (true :: true :: false :: rest) db art
          = (Except.error Err.unavailable, db, rest)) := by
  refine ⟨?_, ?_, ?_, ?_⟩
  · intro e h
    rcases hv : SyncV2 sch db art with ⟨r, db2, sch2⟩
    rw [hv] at h
    have h' : r = Except.error e := h
    show db2 = db
    unfold SyncV2 at hv
    split at hv
    · rename_i sch0 htf
      injection hv with h1 hrest
      injection hrest with h2 h3
      exact h2.symm
    · rename_i sch0 htf
      by_cases hid : (art.id == 0) = true
      · rw [if_pos hid] at hv
        split at hv
        · rename_i e2 sch1 heq
          injection hv with h1 hrest
          injection hrest with h2 h3
          rw [← h2]
          simp [txDB, txRollback, txBegin]
        · rename_i i d' sch1 heq
          have hb := syncV2Publish_error _ _ _ e rfl (by rw [hv]; exact h')
          rw [hv] at hb
          exact hb
      · rw [if_neg hid] at hv
        split at hv
        · rename_i e2 sch1 heq
          injection hv with h1 hrest
          injection hrest with h2 h3
          rw [← h2]
          simp [txDB, txRollback, txBegin]
        · rename_i d' sch1 heq
          have hb := syncV2Publish_error _ _ _ e rfl (by rw [hv]; exact h')
          rw [hv] at hb
          exact hb
  · intro tx
    rfl
  · unfold SyncV2
    cases hid : art.id == 0 <;> rfl
  · intro h0
    unfold SyncV2
    have hid : (art.id == 0) = true := by simp [h0]
    rw [hid]
    rfl

/-- Witness for C2 at a concrete input: a draft-write fault inside the
transaction returns the error and leaves the database unchanged. -/
theorem claimC2_witness :
    SyncV2 [true, false] dbEmpty artNew = (Except.error Err.unavailable, dbEmpty, []) :=
  (claimC2 [true, false] [] dbEmpty artNew).2.2.1

/-- Claim C8: `Withdraw` performs only a status-only synchronization to
Private: it never changes identity, title, body or author of any row in
either store; when the stored author differs from the caller it fails with
Forbidden and leaves the database (in particular the stored status)
unchanged; when the author matches it succeeds and every row with the given
identity in the draft store carries the Private ordinal afterwards. -/
theorem claimC8 (rest : List Bool) (db : DB) (uid i : Int) :
    ((Withdraw (true :: rest) db uid i).2.1.drafts.rows.map contentOf
        = db.drafts.rows.map contentOf
      ∧ (Withdraw (true :: rest) db uid i).2.1.published.rows.map contentOf
        = db.published.rows.map contentOf)
    ∧ (∀ row, rowById db.drafts i = some row → row.authorId ≠ uid →
        Withdraw (true :: rest) db uid i = (some Err.forbidden, db, rest))
    ∧ (∀ row, rowById db.drafts i = some row → row.authorId = uid →
        (Withdraw (true :: rest) db uid i).1 = none
        ∧ ∀ x ∈ (Withdraw (true :: rest) db uid i).2.1.drafts.rows,
            x.id = i → x.status = ArticleStatus.privateS.toUint8) := by
  rcases hrow : rowById db.drafts i with _ | row
  · have hW : Withdraw (true :: rest) db uid i = (some Err.notFound, db, rest) := by
      unfold Withdraw daoSyncStatus
      rw [hrow]
      rfl
    refine ⟨⟨by rw [hW], by rw [hW]⟩, ?_, ?_⟩
    · intro row' hrow' _
      cases hrow'
    · intro row' hrow' _
      cases hrow'
  · by_cases ha : (row.authorId == uid) = true
    · have hW : Withdraw (true :: rest) db uid i
          = (none,
             { drafts := setStatus db.drafts i ArticleStatus.privateS.toUint8
               published := setStatus db.published i ArticleStatus.privateS.toUint8 },
             rest) := by
        unfold Withdraw daoSyncStatus
        rw [hrow]
        simp [ha, takeFault]
      refine ⟨⟨?_, ?_⟩, ?_, ?_⟩
      · rw [hW]
        exact map_contentOf_setStatus db.drafts.rows i _
      · rw [hW]
        exact map_contentOf_setStatus db.published.rows i _
      · intro row' hrow' hne
        injection hrow' with h'
        subst h'
        exact absurd (eq_of_beq ha) hne
      · intro row' hrow' _
        refine ⟨by rw [hW], ?_⟩
        intro x hx hxid
        rw [hW] at hx
        simp only [setStatus] at hx
        rcases List.mem_map.mp hx with ⟨y, hy, hgy⟩
        by_cases hyid : (y.id == i) = true
        · rw [← hgy, if_pos hyid]
        · exfalso
          rw [← hgy, if_neg hyid] at hxid
          exact hyid (beq_iff_eq.mpr hxid)
    · have hW : Withdraw (true :: rest) db uid i = (some Err.forbidden, db, rest) := by
        unfold Withdraw daoSyncStatus
        rw [hrow]
        simp [ha, takeFault]
      refine ⟨⟨by rw [hW], by rw [hW]⟩, ?_, ?_⟩
      · intro row' hrow' _
        exact hW
      · intro row' hrow' heq
        injection hrow' with h'
        subst h'
        exact absurd (beq_iff_eq.mpr heq) ha

/-- Witness for C8 at the spec's scenario: withdrawing item 7 (stored author
2) as author 1 fails with Forbidden and leaves the stores unchanged. -/
theorem claimC8_witness :
    Withdraw [true] dbWith7 1 7 = (some Err.forbidden, dbWith7, []) :=
  (claimC8 [] dbWith7 1 7).2.1
    { id := 7, title := "t", content := "c", authorId := 2, status := 2 } rfl (by decide)

/-- The row list produced by a replacing update keyed on the record's
identity (the ok-payload of `daoUpdateById`). -/
def replaceRows (s : Store) (r : ArticleEntity) : Store :=
  { s with rows := s.rows.map (fun x => if x.id == r.id then r else x) }

/-- Claim C3: for every item with identity 0, Sync (`SyncV1`/`SyncV2`, on an
available store) assigns a positive identity exactly once (the store's next
identity, advanced by one) and writes the same identity to both the draft
and the published record; for every item with an existing non-zero identity
(present in the draft store) Sync keeps every stored identity unchanged in
the draft store and at most appends the item's own identity to the
published store. -/
theorem claimC3 (db : DB) (art : Article) (h : 0 < db.drafts.nextId) :
    (art.id = 0 →
      (SyncV1 [true, true] db art).1 = (db.drafts.nextId, none)
      ∧ 0 < (SyncV1 [true, true] db art).1.1
      ∧ (SyncV1 [true, true] db art).2.1.drafts.nextId = db.drafts.nextId + 1
      ∧ rowById (SyncV1 [true, true] db art).2.1.drafts db.drafts.nextId ≠ none
      ∧ rowById (SyncV1 [true, true] db art).2.1.published db.drafts.nextId
          = some { CachedArticleRepository.toEntity art with id := db.drafts.nextId }
      ∧ (SyncV2 [true, true, true, true] db art).1 = Except.ok db.drafts.nextId
      ∧ (SyncV2 [true, true, true, true] db art).2.1.drafts.nextId = db.drafts.nextId + 1
      ∧ rowById (SyncV2 [true, true, true, true] db art).2.1.drafts db.drafts.nextId ≠ none
      ∧ rowById (SyncV2 [true, true, true, true] db art).2.1.published db.drafts.nextId
          = some { CachedArticleRepository.toEntity art with id := db.drafts.nextId })
    ∧ (art.id ≠ 0 → db.drafts.rows.any (fun x => x.id == art.id) = true →
      (SyncV1 [true, true] db art).1 = (art.id, none)
      ∧ (SyncV1 [true, true] db art).2.1.drafts.rows.map (fun x => x.id)
          = db.drafts.rows.map (fun x => x.id)
      ∧ ((SyncV1 [true, true] db art).2.1.published.rows.map (fun x => x.id)
            = db.published.rows.map (fun x => x.id)
         ∨ (SyncV1 [true, true] db art).2.1.published.rows.map (fun x => x.id)
            = db.published.rows.map (fun x => x.id) ++ [art.id])
      ∧ rowById (SyncV1 [true, true] db art).2.1.published art.id
          = some (CachedArticleRepository.toEntity art)
      ∧ (SyncV2 [true, true, true, true] db art).1 = Except.ok art.id
      ∧ (SyncV2 [true, true, true, true] db art).2.1.drafts.rows.map (fun x => x.id)
          = db.drafts.rows.map (fun x => x.id)
      ∧ ((SyncV2 [true, true, true, true] db art).2.1.published.rows.map (fun x => x.id)
            = db.published.rows.map (fun x => x.id)
         ∨ (SyncV2 [true, true, true, true] db art).2.1.published.rows.map (fun x => x.id)
            = db.published.rows.map (fun x => x.id) ++ [art.id])
      ∧ rowById (SyncV2 [true, true, true, true] db art).2.1.published art.id
          = some (CachedArticleRepository.toEntity art)) := by
  constructor
  · intro hid
    have hbeq : (art.id == 0) = true := by simp [hid]
    have e1 : SyncV1 [true, true] db art
        = ((db.drafts.nextId, none),
           { drafts := (daoInsert db.drafts (CachedArticleRepository.toEntity art)).2
             published := daoUpsert db.published
               { CachedArticleRepository.toEntity art with id := db.drafts.nextId } },
           []) := by
      unfold SyncV1
      rw [hbeq]
      rfl
    have e2 : SyncV2 [true, true, true, true] db art
        = (Except.ok db.drafts.nextId,
           { drafts := (daoInsert db.drafts (CachedArticleRepository.toEntity art)).2
             published := daoUpsert db.published
               { CachedArticleRepository.toEntity art with id := db.drafts.nextId } },
           []) := by
      unfold SyncV2
      rw [hbeq]
      rfl
    refine ⟨by rw [e1], ?_, by rw [e1]; rfl, ?_, ?_, by rw [e2], by rw [e2]; rfl, ?_, ?_⟩
    · rw [e1]
      exact h
    · rw [e1]
      exact rowById_daoInsert_self db.drafts (CachedArticleRepository.toEntity art)
    · rw [e1]
      exact rowById_daoUpsert_self db.published
        { CachedArticleRepository.toEntity art with id := db.drafts.nextId }
    · rw [e2]
      exact rowById_daoInsert_self db.drafts (CachedArticleRepository.toEntity art)
    · rw [e2]
      exact rowById_daoUpsert_self db.published
        { CachedArticleRepository.toEntity art with id := db.drafts.nextId }
  · intro hne hany
    have hbeq : (art.id == 0) = false := by simp [hne]
    have hany' : db.drafts.rows.any
        (fun x => x.id == (CachedArticleRepository.toEntity art).id) = true := hany
    have hupd : callUpdate [true, true] db.drafts (CachedArticleRepository.toEntity art)
        = (Except.ok (replaceRows db.drafts (CachedArticleRepository.toEntity art)), [true]) := by
      unfold callUpdate takeFault daoUpdateById replaceRows
      rw [hany']
      rfl
    have hupd2 : callUpdate [true, true, true] (txBegin db).work.drafts
          (CachedArticleRepository.toEntity art)
        = (Except.ok (replaceRows db.drafts (CachedArticleRepository.toEntity art)),
           [true, true]) := by
      unfold callUpdate takeFault daoUpdateById replaceRows txBegin
      rw [hany']
      rfl
    have u1 : SyncV1 [true, true] db art
        = ((art.id, none),
           { drafts := replaceRows db.drafts (CachedArticleRepository.toEntity art)
             published := daoUpsert db.published (CachedArticleRepository.toEntity art) },
           []) := by
      unfold SyncV1
      rw [hbeq]
      simp only [hupd]
      rfl
    have u2 : SyncV2 [true, true, true, true] db art
        = (Except.ok (CachedArticleRepository.toEntity art).id,
           { drafts := replaceRows db.drafts (CachedArticleRepository.toEntity art)
             published := daoUpsert db.published (CachedArticleRepository.toEntity art) },
           []) := by
      unfold SyncV2
      split
      · rename_i sch0 heq
        simp [takeFault] at heq
      · rename_i sch0 heq
        simp only [takeFault] at heq
        injection heq with h1 h2
        subst h2
        rw [hbeq, hupd2]
        rfl
    refine ⟨by rw [u1], ?_, ?_, ?_, by rw [u2]; rfl, ?_, ?_, ?_⟩
    · rw [u1]
      exact map_ids_replace db.drafts.rows (CachedArticleRepository.toEntity art)
    · rw [u1]
      exact daoUpsert_ids db.published (CachedArticleRepository.toEntity art)
    · rw [u1]
      exact rowById_daoUpsert_self db.published (CachedArticleRepository.toEntity art)
    · rw [u2]
      exact map_ids_replace db.drafts.rows (CachedArticleRepository.toEntity art)
    · rw [u2]
      exact daoUpsert_ids db.published (CachedArticleRepository.toEntity art)
    · rw [u2]
      exact rowById_daoUpsert_self db.published (CachedArticleRepository.toEntity art)

/-- Witness for C3 at a concrete input: syncing a fresh item against empty
stores assigns identity 1 under both strategies. -/
theorem claimC3_witness :
    (SyncV1 [true, true] dbEmpty artNew).1 = (1, none)
    ∧ (SyncV2 [true, true, true, true] dbEmpty artNew).1 = Except.ok 1 := by
  have h1 := (claimC3 dbEmpty artNew (by decide)).1 rfl
  exact ⟨h1.1, h1.2.2.2.2.2.1⟩
